import Mathlib

/-!
Verification of the pothos-sui-test gateway core: the batched entity loaders,
the epoch-index accumulator (src/schema/epochs.ts) and the cursor-pagination
resolvers (src/schema/index.ts), shallowly embedded in Lean.
-/

namespace PothosSui

/-! ## JavaScript number model

`epochs.ts` computes `Math.max(...keys.map((key) => Number.parseInt(key, 10)))`
and compares it with `>`.  `Number.parseInt` can return NaN and `Math.max` of an
empty spread is -Infinity, so numbers are modelled by `JSNum`: NaN, -Infinity,
or an integer (all values that actually arise here are integers). -/

inductive JSNum where
  | nan : JSNum
  | negInf : JSNum
  | int : Int → JSNum
deriving DecidableEq, Repr

/-- `Math.max` on two values: NaN is absorbing, -Infinity is the identity. -/
def jsMax2 : JSNum → JSNum → JSNum
  | .nan, _ => .nan
  | _, .nan => .nan
  | .negInf, b => b
  | a, .negInf => a
  | .int a, .int b => .int (max a b)

/-- JavaScript `>`: any comparison with NaN is false, -Infinity exceeds nothing. -/
def jsGt : JSNum → JSNum → Bool
  | .nan, _ => false
  | _, .nan => false
  | .negInf, _ => false
  | .int _, .negInf => true
  | .int a, .int b => decide (b < a)

/-- `Math.max(...xs)`: fold from -Infinity (the value on an empty argument list). -/
def jsMaxList (xs : List JSNum) : JSNum :=
  xs.foldl jsMax2 .negInf

/-- Numeric value of a digit string (the string is all digits). -/
def digitsVal (cs : List Char) : Nat :=
  cs.foldl (fun n c => n * 10 + (c.toNat - '0'.toNat)) 0

/-- `Number.parseInt(s, 10)`: skip leading whitespace, optional sign, then the
longest run of decimal digits; NaN when that run is empty. -/
def parseIntJS (s : String) : JSNum :=
  let cs := s.toList.dropWhile (fun c => c = ' ')
  let signed : Bool × List Char :=
    match cs with
    | '-' :: r => (true, r)
    | '+' :: r => (false, r)
    | r => (false, r)
  let digits := signed.2.takeWhile Char.isDigit
  if digits.isEmpty then .nan
  else if signed.1 then .int (-(digitsVal digits : Int))
  else .int (digitsVal digits : Int)

/-! ## Epoch-index accumulator (`src/schema/epochs.ts`)

The upstream `suiClient.getEpochs({ cursor })` pages are modelled as the list of
pages the collaborator would hand out from the current cursor onwards; storing
`epochCursor` and advancing it to `page.nextCursor` is modelled by keeping the
not-yet-fetched suffix of that list in the state.  Fetching past the end of the
dataset returns an empty page with no next page. -/

/-- `EpochInfo` as used by the source: only the `epoch` field (a decimal string)
is inspected; every other field is abstracted into `payload`. -/
structure EpochInfo where
  epoch : String
  payload : String
deriving DecidableEq, Repr

/-- One page of the upstream `getEpochs` response. -/
structure EpochPage where
  data : List EpochInfo
  hasNextPage : Bool
deriving DecidableEq, Repr

/-- The module-level mutable state of `epochs.ts`: `allEpochs`, `latestEpoch`
and the pagination position (`epochCursor`, as the unfetched page suffix). -/
structure EpochState where
  allEpochs : List EpochInfo
  latestEpoch : JSNum
  remaining : List EpochPage
deriving DecidableEq, Repr

/-- The state at module load: `allEpochs = []`, `latestEpoch = -1`, cursor at
the start of the upstream dataset. -/
def initialEpochState (upstream : List EpochPage) : EpochState :=
  ⟨[], .int (-1), upstream⟩

/-- The `page.data.forEach` body folded over one page: push each epoch and take
`latestEpoch = Math.max(latestEpoch, Number.parseInt(epoch.epoch, 10))`. -/
def foldPageLatest (latest : JSNum) (data : List EpochInfo) : JSNum :=
  data.foldl (fun l e => jsMax2 l (parseIntJS e.epoch)) latest

/-- `foldPageLatest` iterated over a list of pages. -/
def foldLatestPages (latest : JSNum) (pages : List EpochPage) : JSNum :=
  pages.foldl (fun l p => foldPageLatest l p.data) latest

/-- Result of the `while` scan: the updated accumulation, watermark and cursor
position, plus how many upstream page fetches were issued. -/
structure ScanResult where
  allEpochs : List EpochInfo
  latestEpoch : JSNum
  remaining : List EpochPage
  fetches : Nat
deriving DecidableEq, Repr

/-- The `while (max > latestEpoch)` loop of `getEpochs`: fetch the page at the
cursor, advance the cursor, fold the page in, break when `!page.hasNextPage`. -/
def scanLoop (mx : JSNum) : List EpochPage → List EpochInfo → JSNum → ScanResult
  | remaining, acc, latest =>
    if jsGt mx latest then
      match remaining with
      | [] => ⟨acc, latest, [], 1⟩
      | page :: rest =>
        let acc' := acc ++ page.data
        let latest' := foldPageLatest latest page.data
        if page.hasNextPage then
          let r := scanLoop mx rest acc' latest'
          ⟨r.allEpochs, r.latestEpoch, r.remaining, r.fetches + 1⟩
        else ⟨acc', latest', rest, 1⟩
    else ⟨acc, latest, remaining, 0⟩

deriving instance DecidableEq for Except

/-- `allEpochs.find((epoch) => epoch.epoch === String(key)) || new Error(...)`. -/
def epochLookup (acc : List EpochInfo) (key : String) : Except String EpochInfo :=
  match acc.find? (fun e => e.epoch == key) with
  | some e => .ok e
  | none => .error "Epoch not found"

/-- `getEpochs(keys)`: compute `max`, run the scan loop against the module
state, then map every key to its accumulated record or a not-found error.
Returns the per-key results, the updated module state, and the number of
upstream page fetches issued. -/
def getEpochs (keys : List String) (st : EpochState) :
    List (Except String EpochInfo) × EpochState × Nat :=
  let mx := jsMaxList (keys.map parseIntJS)
  let r := scanLoop mx st.remaining st.allEpochs st.latestEpoch
  (keys.map (epochLookup r.allEpochs), ⟨r.allEpochs, r.latestEpoch, r.remaining⟩, r.fetches)

/-- The module state after a sequence of `getEpochs` calls. -/
def runCalls (calls : List (List String)) (st : EpochState) : EpochState :=
  calls.foldl (fun s ks => (getEpochs ks s).2.1) st

/-! ## Batched entity loaders (`src/schema/index.ts`)

Each loader's `load(keys)` is embedded as a function of the collaborator and
the key list.  Alongside its result, each embedding returns the list of
upstream requests it issues (one entry per upstream call, carrying the keys of
that call), so that batching and call-count claims can be stated. -/

/-- A transaction block as the loaders see it: only `digest` is inspected. -/
structure Txb where
  digest : String
  payload : String
deriving DecidableEq, Repr

/-- `TransactionBlock.load` (index.ts:875): one `multiGetTransactionBlocks`
call carrying all `keys`, then each key is mapped to the first returned block
with that digest, or a per-key not-found error.  `multiGet` models the
collaborator's (possibly sparse, possibly reordered) response. -/
def transactionBlockLoad (multiGet : List String → List Txb) (keys : List String) :
    List (Except String Txb) × List (List String) :=
  let result := multiGet keys
  (keys.map fun digest =>
      match result.find? (fun txb => txb.digest == digest) with
      | some txb => .ok txb
      | none => .error ("TransactionBlock " ++ digest ++ " not found"),
    [keys])

/-- An object as the loaders see it: only `objectId` is inspected. -/
structure Obj where
  objectId : String
  payload : String
deriving DecidableEq, Repr

/-- `ObjectRef.load` (index.ts:1571): one `multiGetObjects` call carrying all
`keys`; the responses' `.data` fields (absent on error responses, hence
`Option`) are matched back to each key by `objectId`, with a per-key not-found
fallback. -/
def objectLoad (multiGet : List String → List (Option Obj)) (keys : List String) :
    List (Except String Obj) × List (List String) :=
  let result := multiGet keys
  (keys.map fun id =>
      match result.find? (fun o => o.any fun obj => obj.objectId == id) with
      | some (some obj) => .ok obj
      | _ => .error ("Object " ++ id ++ " not found"),
    [keys])

/-- A checkpoint: `digest` identifies it, `sequenceNumber` orders it. -/
structure Chk where
  digest : String
  sequenceNumber : String
  payload : String
deriving DecidableEq, Repr

/-- `Checkpoint.load` (index.ts:343):
`Promise.all(keys.map((id) => suiClient.getCheckpoint({ id })))` — one
`getCheckpoint` call per key; a rejection of any single call rejects the whole
batch (`Promise.all` semantics, modelled by `mapM` over `Except`).  All the
per-key calls are issued regardless. -/
def checkpointLoad (getCheckpoint : String → Except String Chk) (keys : List String) :
    Except String (List Chk) × List (List String) :=
  (keys.mapM getCheckpoint, keys.map fun k => [k])

/-- A normalized Move module: only `address` and `name` matter here. -/
structure MoveMod where
  address : String
  name : String
deriving DecidableEq, Repr

/-- `MoveModule.load` (index.ts:1380): `Promise.all` over one
`getNormalizedMoveModule` call per key, with the key split on `','` into
package and module name.  As with `Checkpoint.load`, one upstream call per key
and whole-batch rejection on any failure. -/
def moveModuleLoad (getNormalizedMoveModule : String → String → Except String MoveMod)
    (keys : List String) : Except String (List MoveMod) × List (List String) :=
  (keys.mapM fun key =>
      getNormalizedMoveModule ((key.splitOn ",").getD 0 "") ((key.splitOn ",").getD 1 ""),
    keys.map fun k => [k])

/-! ## Cursor-pagination resolvers (`src/schema/index.ts`)

The fetch closures handed to `resolveCursorConnection` are embedded from the
source.  Each one returns, alongside its result, the list of upstream requests
it issues. -/

/-- Identity of an event: its emitting sequence plus its transaction digest. -/
structure EventId where
  eventSeq : String
  txDigest : String
deriving DecidableEq, Repr

/-- An event as the resolvers see it. -/
structure Ev where
  id : EventId
  payload : String
deriving DecidableEq, Repr

/-- The `ResolveCursorConnectionArgs` the plugin hands to a fetch closure. -/
structure FetchArgs where
  before : Option String
  after : Option String
  inverted : Bool
  limit : Nat
deriving DecidableEq, Repr

/-- One upstream page: its items and whether more exist past them. -/
structure UpPage (α : Type) where
  items : List α
  hasNextPage : Bool
deriving DecidableEq, Repr

/-- One edge of a connection result. -/
structure Edge (α : Type) where
  node : α
  cursor : String
deriving DecidableEq, Repr

/-- The edges/pageInfo envelope a connection resolver returns. -/
structure ConnectionResult (α : Type) where
  edges : List (Edge α)
  hasNextPage : Bool
  endCursor : Option String
deriving DecidableEq, Repr

/-- Modelled from the spec: `resolveCursorConnection` of `@pothos/plugin-relay`
is a library function, not part of this repository.  Per §4.2 of the spec it
issues exactly one `fetchPage` call per invocation, builds `edges` by mapping
each returned item through the entity-specific cursor function, passes
`hasNextPage` through from upstream, and takes `endCursor` from the last edge
(absent when there are no edges).  An error thrown by the fetch closure is the
resolver's error. -/
def paginate {α ρ : Type} (toCursor : α → String)
    (fetchPage : FetchArgs → Except String (UpPage α) × List ρ)
    (args : FetchArgs) : Except String (ConnectionResult α) × List ρ :=
  match fetchPage args with
  | (.error e, reqs) => (.error e, reqs)
  | (.ok page, reqs) =>
    let edges := page.items.map fun item => Edge.mk item (toCursor item)
    (.ok ⟨edges, page.hasNextPage, edges.getLast?.map Edge.cursor⟩, reqs)

/-- `toCursor` of `checkpointConnection` (index.ts:180): the sequence number. -/
def checkpointToCursor (data : Chk) : String :=
  data.sequenceNumber

/-- `toCursor` of `transactionBlockConnection` (index.ts:211): the digest. -/
def transactionBlockToCursor (data : Txb) : String :=
  data.digest

/-- `toCursor` of `eventConnection` (index.ts:243): the composite
`eventSeq,txDigest` template string. -/
def eventToCursor (data : Ev) : String :=
  data.id.eventSeq ++ "," ++ data.id.txDigest

/-- The parameters `checkpointConnection` sends to `suiClient.getCheckpoints`. -/
structure CheckpointsRequest where
  descendingOrder : Bool
  limit : Nat
  cursor : Option String
deriving DecidableEq, Repr

/-- The parameters sent to `suiClient.queryTransactionBlocks` (fields the two
call sites set; an unset optional parameter is `none`). -/
structure TxbQueryRequest where
  limit : Option Nat
  cursor : Option String
  ord : Option String
  toAddressFilter : Option String
deriving DecidableEq, Repr

/-- The parameters `eventConnection` sends to `suiClient.queryEvents`: the
`cursor:` and `order:` lines are commented out in the source, so those
parameters are never set. -/
structure EventsQueryRequest where
  limit : Nat
  cursor : Option String
  ord : Option String
deriving DecidableEq, Repr

/-- The fetch closure of `checkpointConnection` (index.ts:182-194): throws on
`before`, otherwise one `getCheckpoints` call with
`descendingOrder: !inverted`, `limit`, `cursor: after`. -/
def checkpointFetch (getCheckpoints : CheckpointsRequest → UpPage Chk)
    (args : FetchArgs) : Except String (UpPage Chk) × List CheckpointsRequest :=
  match args.before with
  | some _ => (.error "backwards pagination not implemented", [])
  | none =>
    let req : CheckpointsRequest := ⟨!args.inverted, args.limit, args.after⟩
    (.ok (getCheckpoints req), [req])

/-- The fetch closure of `transactionBlockConnection` (index.ts:213-226):
throws on `before`, otherwise one `queryTransactionBlocks` call with `limit`,
`cursor: after` and `order: inverted ? 'descending' : 'ascending'`. -/
def transactionBlockFetch (queryTransactionBlocks : TxbQueryRequest → UpPage Txb)
    (args : FetchArgs) : Except String (UpPage Txb) × List TxbQueryRequest :=
  match args.before with
  | some _ => (.error "backwards pagination not implemented", [])
  | none =>
    let req : TxbQueryRequest :=
      ⟨some args.limit, args.after, some (if args.inverted then "descending" else "ascending"),
        none⟩
    (.ok (queryTransactionBlocks req), [req])

/-- The fetch closure of `eventConnection` (index.ts:245-261): throws on
`before`, otherwise one `queryEvents` call carrying only `limit` — the cursor
and order parameters are commented out in the source and never sent. -/
def eventFetch (queryEvents : EventsQueryRequest → UpPage Ev)
    (args : FetchArgs) : Except String (UpPage Ev) × List EventsQueryRequest :=
  match args.before with
  | some _ => (.error "backwards pagination not implemented", [])
  | none =>
    let req : EventsQueryRequest := ⟨args.limit, none, none⟩
    (.ok (queryEvents req), [req])

/-- The fetch closure of `receivedTransactionBlockConnection`
(index.ts:1626-1634): it takes no parameters at all — `before`, `after`,
`inverted` and `limit` are all ignored — and always issues one
`queryTransactionBlocks` call carrying only the `ToAddress` filter. -/
def receivedTransactionBlockFetch (queryTransactionBlocks : TxbQueryRequest → UpPage Txb)
    (objectId : String) (_args : FetchArgs) : Except String (UpPage Txb) × List TxbQueryRequest :=
  let req : TxbQueryRequest := ⟨none, none, none, some objectId⟩
  (.ok (queryTransactionBlocks req), [req])

/-- The `checkpointConnection` resolver (index.ts:173-197). -/
def checkpointConnection (getCheckpoints : CheckpointsRequest → UpPage Chk)
    (args : FetchArgs) : Except String (ConnectionResult Chk) × List CheckpointsRequest :=
  paginate checkpointToCursor (checkpointFetch getCheckpoints) args

/-- The `transactionBlockConnection` resolver (index.ts:198-229). -/
def transactionBlockConnection (queryTransactionBlocks : TxbQueryRequest → UpPage Txb)
    (args : FetchArgs) : Except String (ConnectionResult Txb) × List TxbQueryRequest :=
  paginate transactionBlockToCursor (transactionBlockFetch queryTransactionBlocks) args

/-- The `eventConnection` resolver (index.ts:230-264). -/
def eventConnection (queryEvents : EventsQueryRequest → UpPage Ev)
    (args : FetchArgs) : Except String (ConnectionResult Ev) × List EventsQueryRequest :=
  paginate eventToCursor (eventFetch queryEvents) args

/-- The `receivedTransactionBlockConnection` resolver (index.ts:1622-1636). -/
def receivedTransactionBlockConnection (queryTransactionBlocks : TxbQueryRequest → UpPage Txb)
    (objectId : String) (args : FetchArgs) :
    Except String (ConnectionResult Txb) × List TxbQueryRequest :=
  paginate transactionBlockToCursor
    (receivedTransactionBlockFetch queryTransactionBlocks objectId) args

/-! ## Collaborator model for paged list calls

The upstream paged list calls (§6 of the spec: `getPage(type, cursor|null,
limit, descending)`) are modelled over a fixed dataset: the items strictly
after the cursor element, in the requested order, truncated to `limit`, with
`hasNextPage` reporting whether anything lies beyond the returned page. -/

/-- The items of the ordered dataset strictly after the element whose key is
the cursor (everything, for a null cursor; nothing, for an unknown cursor). -/
def restAfter {α : Type} (key : α → String) (ordered : List α) : Option String → List α
  | none => ordered
  | some c => ((ordered.dropWhile fun x => !(key x == c)).drop 1)

/-- One upstream page over a fixed dataset. -/
def getPageModel {α : Type} (key : α → String) (dataset : List α) (descending : Bool)
    (cursor : Option String) (limit : Nat) : UpPage α :=
  let ordered := if descending then dataset.reverse else dataset
  let rest := restAfter key ordered cursor
  ⟨rest.take limit, decide (limit < rest.length)⟩

/-- Forward pagination driver: re-invoke `paginate` with the previous page's
`endCursor` until `hasNextPage` is false, collecting the nodes of every edge in
order.  `fuel` bounds the number of protocol-level requests. -/
def paginateAll {α ρ : Type} (toCursor : α → String)
    (fetchPage : FetchArgs → Except String (UpPage α) × List ρ) :
    Nat → Nat → Option String → List α
  | 0, _, _ => []
  | fuel + 1, n, after =>
    match (paginate toCursor fetchPage ⟨none, after, false, n⟩).1 with
    | .error _ => []
    | .ok conn =>
      let nodes := conn.edges.map Edge.node
      if conn.hasNextPage then
        match conn.endCursor with
        | some c => nodes ++ paginateAll toCursor fetchPage fuel n (some c)
        | none => nodes
      else nodes

/-- The modelled `suiClient.getCheckpoints` over a fixed dataset: honours the
request's `descendingOrder`, `cursor` (a sequence number) and `limit`. -/
def getCheckpointsModel (dataset : List Chk) (req : CheckpointsRequest) : UpPage Chk :=
  getPageModel Chk.sequenceNumber dataset req.descendingOrder req.cursor req.limit

/-- The modelled `suiClient.queryTransactionBlocks` over a fixed dataset:
honours the request's order, `cursor` (a digest) and `limit` (default 50). -/
def queryTxbModel (txbs : List Txb) (req : TxbQueryRequest) : UpPage Txb :=
  getPageModel Txb.digest txbs (req.ord == some "descending") req.cursor (req.limit.getD 50)

/-! ## Concrete fixtures used by witnesses and counterexamples -/

/-- A demo epoch record. -/
def demoEpoch (n : String) : EpochInfo := ⟨n, "payload"⟩

/-- A demo upstream epoch dataset: epochs 0..4 over three pages. -/
def demoEpochPages : List EpochPage :=
  [⟨[demoEpoch "0", demoEpoch "1"], true⟩, ⟨[demoEpoch "2", demoEpoch "3"], true⟩,
    ⟨[demoEpoch "4"], false⟩]

/-- A collaborator that returns only objects `A` and `C` for any batch. -/
def demoObjUpstream : List String → List (Option Obj) :=
  fun _ => [some ⟨"A", "objA"⟩, some ⟨"C", "objC"⟩]

/-- A collaborator that returns blocks `C` and `A` (out of request order). -/
def demoTxbUpstream : List String → List Txb :=
  fun _ => [⟨"C", "tc"⟩, ⟨"A", "ta"⟩]

/-- A per-id checkpoint collaborator with no checkpoint `B`. -/
def demoGetCheckpointMissingB : String → Except String Chk :=
  fun id => if id = "B" then .error "upstream: checkpoint not found" else .ok ⟨id, id, "chk"⟩

/-- A per-key Move-module collaborator. -/
def demoGetModule : String → String → Except String MoveMod :=
  fun pkg name => .ok ⟨pkg, name⟩

/-- A demo checkpoint dataset in ascending sequence order. -/
def demoChkData : List Chk := [⟨"d1", "1", "c1"⟩, ⟨"d2", "2", "c2"⟩, ⟨"d3", "3", "c3"⟩]

/-- `suiClient.getCheckpoints` over the demo dataset. -/
def demoGetCheckpoints (req : CheckpointsRequest) : UpPage Chk :=
  getPageModel Chk.sequenceNumber demoChkData req.descendingOrder req.cursor req.limit

/-- A demo event dataset of two events. -/
def demoEvData : List Ev := [⟨⟨"0", "t1"⟩, "e1"⟩, ⟨⟨"1", "t1"⟩, "e2"⟩]

/-- `suiClient.queryEvents` over the demo dataset (the request carries no
cursor, so only its limit matters). -/
def demoQueryEvents (req : EventsQueryRequest) : UpPage Ev :=
  getPageModel eventToCursor demoEvData false req.cursor req.limit

/-- A demo transaction-block dataset. -/
def demoTxbData : List Txb := [⟨"a", "t1"⟩, ⟨"b", "t2"⟩]

/-- `suiClient.queryTransactionBlocks` over the demo dataset. -/
def demoQueryTxb (req : TxbQueryRequest) : UpPage Txb :=
  getPageModel Txb.digest demoTxbData false req.cursor (req.limit.getD 50)

/-! ## Helper lemmas: JS number semantics -/

theorem jsGt_nan_left (x : JSNum) : jsGt .nan x = false := by
  cases x <;> rfl

theorem jsGt_negInf_left (x : JSNum) : jsGt .negInf x = false := by
  cases x <;> rfl

theorem jsMax2_nan_left (x : JSNum) : jsMax2 .nan x = .nan := by
  cases x <;> rfl

theorem foldl_jsMax2_nan (xs : List JSNum) : xs.foldl jsMax2 .nan = .nan := by
  induction xs with
  | nil => rfl
  | cons x xs ih => simpa [List.foldl_cons, jsMax2_nan_left] using ih

theorem jsMax2_nan_right (x : JSNum) : jsMax2 x .nan = .nan := by
  cases x <;> rfl

theorem foldl_jsMax2_nan_of_mem :
    ∀ (xs : List JSNum) (acc : JSNum), JSNum.nan ∈ xs → xs.foldl jsMax2 acc = .nan
  | x :: xs, acc, h => by
    rcases List.mem_cons.mp h with hx | hx
    · subst hx
      simpa [List.foldl_cons, jsMax2_nan_right] using foldl_jsMax2_nan xs
    · exact foldl_jsMax2_nan_of_mem xs (jsMax2 acc x) hx

theorem jsMaxList_nan_of_mem {xs : List JSNum} (h : JSNum.nan ∈ xs) :
    jsMaxList xs = .nan :=
  foldl_jsMax2_nan_of_mem xs .negInf h

/-! ## Scan-loop characterization (`getEpochs` while loop) -/

theorem scanLoop_zero (mx : JSNum) (rem : List EpochPage) (acc : List EpochInfo)
    (latest : JSNum) (h : jsGt mx latest = false) :
    scanLoop mx rem acc latest = ⟨acc, latest, rem, 0⟩ := by
  rw [scanLoop.eq_def]
  simp [h]

theorem foldLatestPages_nil (latest : JSNum) : foldLatestPages latest [] = latest := rfl

theorem foldLatestPages_cons (latest : JSNum) (p : EpochPage) (l : List EpochPage) :
    foldLatestPages latest (p :: l) = foldLatestPages (foldPageLatest latest p.data) l := rfl

/-- State evolution of the scan: the cursor advances by exactly the number of
fetched pages (never backwards, never re-reading), the accumulation is the old
one extended by the fetched pages' data in order, and the watermark is the fold
of the fetched pages over the old watermark. -/
theorem scanLoop_state (mx : JSNum) (rem : List EpochPage) :
    ∀ (acc : List EpochInfo) (latest : JSNum),
      (scanLoop mx rem acc latest).remaining = rem.drop (scanLoop mx rem acc latest).fetches ∧
      (scanLoop mx rem acc latest).allEpochs
        = acc ++ ((rem.take (scanLoop mx rem acc latest).fetches).map EpochPage.data).flatten ∧
      (scanLoop mx rem acc latest).latestEpoch
        = foldLatestPages latest (rem.take (scanLoop mx rem acc latest).fetches) := by
  induction rem with
  | nil =>
    intro acc latest
    by_cases h : jsGt mx latest
    · rw [scanLoop.eq_def]
      simp [h, foldLatestPages]
    · rw [scanLoop_zero mx _ _ _ (by simpa using h)]
      simp [foldLatestPages]
  | cons page rest ih =>
    intro acc latest
    by_cases h : jsGt mx latest
    · by_cases hn : page.hasNextPage
      · obtain ⟨h1, h2, h3⟩ := ih (acc ++ page.data) (foldPageLatest latest page.data)
        rw [scanLoop.eq_def]
        simp only [h, if_true, hn]
        refine ⟨by simpa using h1, ?_, ?_⟩
        · simpa [List.append_assoc] using h2
        · simpa [foldLatestPages_cons] using h3
      · rw [scanLoop.eq_def]
        simp [h, hn, foldLatestPages_cons, foldLatestPages_nil]
    · rw [scanLoop_zero mx _ _ _ (by simpa using h)]
      simp [foldLatestPages]

/-- Minimality of the scan: before each fetched page, the watermark
accumulated so far was still strictly below the requested maximum — no page is
fetched beyond what the current request needs. -/
theorem scanLoop_needed (mx : JSNum) (rem : List EpochPage) :
    ∀ (acc : List EpochInfo) (latest : JSNum) (k : Nat),
      k < (scanLoop mx rem acc latest).fetches →
      jsGt mx (foldLatestPages latest (rem.take k)) = true := by
  induction rem with
  | nil =>
    intro acc latest k hk
    by_cases h : jsGt mx latest
    · rw [scanLoop.eq_def] at hk
      simp [h] at hk
      have hk0 : k = 0 := by omega
      subst hk0
      simpa [foldLatestPages] using h
    · rw [scanLoop_zero mx _ _ _ (by simpa using h)] at hk
      exact absurd hk (by simp)
  | cons page rest ih =>
    intro acc latest k hk
    by_cases h : jsGt mx latest
    · by_cases hn : page.hasNextPage
      · rw [scanLoop.eq_def] at hk
        simp only [h, if_true, hn] at hk
        match k with
        | 0 => simpa [foldLatestPages] using h
        | j + 1 =>
          rw [List.take_succ_cons, foldLatestPages_cons]
          exact ih (acc ++ page.data) (foldPageLatest latest page.data) j
            (by omega)
      · rw [scanLoop.eq_def] at hk
        simp [h, hn] at hk
        have hk0 : k = 0 := by omega
        subst hk0
        simpa [foldLatestPages] using h
    · rw [scanLoop_zero mx _ _ _ (by simpa using h)] at hk
      exact absurd hk (by simp)

/-- Stopping condition of the scan: afterwards, either the watermark is no
longer below the requested maximum, or at least one page was fetched and the
last fetched page reported `hasNextPage = false` (fetching past the end of the
upstream dataset counts as such a page). -/
theorem scanLoop_stop (mx : JSNum) (rem : List EpochPage) :
    ∀ (acc : List EpochInfo) (latest : JSNum),
      jsGt mx (scanLoop mx rem acc latest).latestEpoch = false ∨
        (0 < (scanLoop mx rem acc latest).fetches ∧
          ∀ h : (scanLoop mx rem acc latest).fetches - 1 < rem.length,
            (rem.get ⟨(scanLoop mx rem acc latest).fetches - 1, h⟩).hasNextPage = false) := by
  induction rem with
  | nil =>
    intro acc latest
    by_cases h : jsGt mx latest
    · right
      rw [scanLoop.eq_def]
      simp [h]
    · left
      rw [scanLoop_zero mx _ _ _ (by simpa using h)]
      simpa using h
  | cons page rest ih =>
    intro acc latest
    by_cases h : jsGt mx latest
    · by_cases hn : page.hasNextPage
      · rcases ih (acc ++ page.data) (foldPageLatest latest page.data) with hl | ⟨hpos, hlast⟩
        · left
          rw [scanLoop.eq_def]
          simp only [h, if_true, hn]
          simpa using hl
        · right
          rw [scanLoop.eq_def]
          simp only [h, if_true, hn]
          constructor
          · simp
          · intro hb
            obtain ⟨j, hj⟩ : ∃ j, (scanLoop mx rest (acc ++ page.data)
                (foldPageLatest latest page.data)).fetches = j + 1 :=
              ⟨_, (Nat.succ_pred_eq_of_pos hpos).symm⟩
            simp only [hj] at hb ⊢
            simp only [Nat.add_sub_cancel] at hb ⊢
            have hb' : j < rest.length := by
              simp at hb
              omega
            have := hlast (by omega)
            simpa [hj, List.get_cons_succ] using this
      · right
        rw [scanLoop.eq_def]
        simp [h, hn]
    · left
      rw [scanLoop_zero mx _ _ _ (by simpa using h)]
      simpa using h

/-- When the highest requested epoch is not above the stored watermark, a
`getEpochs` call does not enter the scan loop at all: zero upstream fetches,
unchanged state, results served from the existing accumulation. -/
theorem getEpochs_zero_fetch (keys : List String) (st : EpochState)
    (h : jsGt (jsMaxList (keys.map parseIntJS)) st.latestEpoch = false) :
    (getEpochs keys st).1 = keys.map (epochLookup st.allEpochs) ∧
      (getEpochs keys st).2.1 = st ∧ (getEpochs keys st).2.2 = 0 := by
  have hz := scanLoop_zero (jsMaxList (keys.map parseIntJS)) st.remaining st.allEpochs
    st.latestEpoch h
  simp [getEpochs, hz]

/-- `getEpochs` state evolution, lifted from `scanLoop_state`. -/
theorem getEpochs_state (keys : List String) (st : EpochState) :
    (getEpochs keys st).2.1.remaining = st.remaining.drop (getEpochs keys st).2.2 ∧
      (getEpochs keys st).2.1.allEpochs
        = st.allEpochs ++ ((st.remaining.take (getEpochs keys st).2.2).map EpochPage.data).flatten ∧
      (getEpochs keys st).2.1.latestEpoch
        = foldLatestPages st.latestEpoch (st.remaining.take (getEpochs keys st).2.2) ∧
      (getEpochs keys st).1
        = keys.map (epochLookup (getEpochs keys st).2.1.allEpochs) := by
  obtain ⟨h1, h2, h3⟩ :=
    scanLoop_state (jsMaxList (keys.map parseIntJS)) st.remaining st.allEpochs st.latestEpoch
  exact ⟨h1, h2, h3, rfl⟩

/-- Folding one page of integer-parsing epochs over an integer watermark keeps
it an integer and never lowers it. -/
theorem foldPageLatest_int (data : List EpochInfo) :
    ∀ (v : Int), (∀ e ∈ data, ∃ m : Int, parseIntJS e.epoch = .int m) →
      ∃ v' : Int, foldPageLatest (.int v) data = .int v' ∧ v ≤ v' := by
  induction data with
  | nil => exact fun v _ => ⟨v, rfl, le_refl v⟩
  | cons e data ih =>
    intro v hp
    obtain ⟨m, hm⟩ := hp e (by simp)
    obtain ⟨v', h1, h2⟩ := ih (max v m) (fun e' he' => hp e' (by simp [he']))
    refine ⟨v', ?_, le_trans (le_max_left v m) h2⟩
    simpa [foldPageLatest, hm, jsMax2] using h1

/-- `foldPageLatest_int` iterated over pages. -/
theorem foldLatestPages_int (pages : List EpochPage) :
    ∀ (v : Int), (∀ p ∈ pages, ∀ e ∈ p.data, ∃ m : Int, parseIntJS e.epoch = .int m) →
      ∃ v' : Int, foldLatestPages (.int v) pages = .int v' ∧ v ≤ v' := by
  induction pages with
  | nil => exact fun v _ => ⟨v, rfl, le_refl v⟩
  | cons p pages ih =>
    intro v hp
    obtain ⟨w, hw1, hw2⟩ := foldPageLatest_int p.data v (hp p (by simp))
    obtain ⟨v', h1, h2⟩ := ih w (fun p' hp' => hp p' (by simp [hp']))
    exact ⟨v', by simpa [foldLatestPages_cons, hw1] using h1, le_trans hw2 h2⟩

/-- A record found in the accumulation is still the one found after the
accumulation is extended on the right. -/
theorem epochLookup_append (acc tail : List EpochInfo) (k : String) (e : EpochInfo)
    (h : epochLookup acc k = .ok e) : epochLookup (acc ++ tail) k = .ok e := by
  unfold epochLookup at h ⊢
  rcases hf : acc.find? (fun x => x.epoch == k) with _ | e'
  · rw [hf] at h
    cases h
  · rw [hf] at h
    rw [List.find?_append, hf]
    simpa using h

/-- One `getEpochs` call only grows the state: accumulation extended on the
right, integer watermark not lowered, cursor advanced (a suffix of the pages). -/
theorem getEpochs_step_monotone (keys : List String) (st : EpochState) (v : Int)
    (hv : st.latestEpoch = .int v)
    (hparse : ∀ p ∈ st.remaining, ∀ e ∈ p.data, ∃ m : Int, parseIntJS e.epoch = .int m) :
    (∃ tail, (getEpochs keys st).2.1.allEpochs = st.allEpochs ++ tail) ∧
      (∃ v' : Int, (getEpochs keys st).2.1.latestEpoch = .int v' ∧ v ≤ v') ∧
      (∃ n, (getEpochs keys st).2.1.remaining = st.remaining.drop n) := by
  obtain ⟨h1, h2, h3, _⟩ := getEpochs_state keys st
  refine ⟨⟨_, h2⟩, ?_, ⟨_, h1⟩⟩
  obtain ⟨v', hv1, hv2⟩ := foldLatestPages_int (st.remaining.take (getEpochs keys st).2.2) v
    (fun p hp => hparse p (List.mem_of_mem_take hp))
  exact ⟨v', by rw [h3, hv]; exact hv1, hv2⟩

/-- `getEpochs_step_monotone` extended over any sequence of calls. -/
theorem runCalls_monotone (calls : List (List String)) :
    ∀ (st : EpochState) (v : Int), st.latestEpoch = .int v →
      (∀ p ∈ st.remaining, ∀ e ∈ p.data, ∃ m : Int, parseIntJS e.epoch = .int m) →
      (∃ tail, (runCalls calls st).allEpochs = st.allEpochs ++ tail) ∧
        (∃ v' : Int, (runCalls calls st).latestEpoch = .int v' ∧ v ≤ v') ∧
        (∃ n, (runCalls calls st).remaining = st.remaining.drop n) := by
  induction calls with
  | nil =>
    intro st v hv hparse
    exact ⟨⟨[], by simp [runCalls]⟩, ⟨v, hv, le_refl v⟩, ⟨0, by simp [runCalls]⟩⟩
  | cons ks calls ih =>
    intro st v hv hparse
    obtain ⟨⟨t1, ht1⟩, ⟨v1, hv1, hle1⟩, ⟨n1, hn1⟩⟩ := getEpochs_step_monotone ks st v hv hparse
    have hparse' : ∀ p ∈ (getEpochs ks st).2.1.remaining, ∀ e ∈ p.data,
        ∃ m : Int, parseIntJS e.epoch = .int m := by
      intro p hp
      rw [hn1] at hp
      exact hparse p (List.mem_of_mem_drop hp)
    obtain ⟨⟨t2, ht2⟩, ⟨v2, hv2, hle2⟩, ⟨n2, hn2⟩⟩ := ih (getEpochs ks st).2.1 v1 hv1 hparse'
    have hrun : runCalls (ks :: calls) st = runCalls calls (getEpochs ks st).2.1 := rfl
    refine ⟨⟨t1 ++ t2, ?_⟩, ⟨v2, ?_, le_trans hle1 hle2⟩, ⟨n1 + n2, ?_⟩⟩
    · rw [hrun, ht2, ht1, List.append_assoc]
    · rw [hrun, hv2]
    · rw [hrun, hn2, hn1, List.drop_drop, Nat.add_comm]

/-- C6: the `getEpochs` accumulator fetches upstream pages only while the
requested maximum is still above the watermark (each fetch was necessary for
the current request), stops once the watermark reaches the maximum or the
upstream reports no next page, resumes from the stored cursor (the fetched
pages are exactly the next ones, never a re-scan from the beginning), and a
later call whose requested maximum is already within the scanned range issues
zero upstream fetches and leaves the state untouched. -/
theorem getEpochs_scan_minimal_and_persistent (keys : List String) (st : EpochState) :
    (∀ k, k < (getEpochs keys st).2.2 →
      jsGt (jsMaxList (keys.map parseIntJS))
        (foldLatestPages st.latestEpoch (st.remaining.take k)) = true) ∧
      (jsGt (jsMaxList (keys.map parseIntJS)) (getEpochs keys st).2.1.latestEpoch = false ∨
        (0 < (getEpochs keys st).2.2 ∧
          ∀ h : (getEpochs keys st).2.2 - 1 < st.remaining.length,
            (st.remaining.get ⟨(getEpochs keys st).2.2 - 1, h⟩).hasNextPage = false)) ∧
      (getEpochs keys st).2.1.remaining = st.remaining.drop (getEpochs keys st).2.2 ∧
      (getEpochs keys st).2.1.allEpochs
        = st.allEpochs ++ ((st.remaining.take (getEpochs keys st).2.2).map EpochPage.data).flatten ∧
      (∀ keys2 : List String,
        jsGt (jsMaxList (keys2.map parseIntJS)) (getEpochs keys st).2.1.latestEpoch = false →
        (getEpochs keys2 (getEpochs keys st).2.1).2.2 = 0 ∧
          (getEpochs keys2 (getEpochs keys st).2.1).2.1 = (getEpochs keys st).2.1) := by
  obtain ⟨h1, h2, h3, _⟩ := getEpochs_state keys st
  refine ⟨?_, ?_, h1, h2, ?_⟩
  · intro k hk
    exact scanLoop_needed _ st.remaining st.allEpochs st.latestEpoch k hk
  · have := scanLoop_stop (jsMaxList (keys.map parseIntJS)) st.remaining st.allEpochs st.latestEpoch
    exact this
  · intro keys2 hk2
    obtain ⟨_, hs, hf⟩ := getEpochs_zero_fetch keys2 (getEpochs keys st).2.1 hk2
    exact ⟨hf, hs⟩

/-- C6 witness: over the demo upstream, requesting epoch `3` from a fresh
state fetches exactly two pages, and a later request for epoch `1` (already
inside the scanned range) fetches zero pages and leaves the state unchanged. -/
theorem getEpochs_scan_minimal_and_persistent_witness :
    (getEpochs ["3"] (initialEpochState demoEpochPages)).2.2 = 2 ∧
      (getEpochs ["1"] (getEpochs ["3"] (initialEpochState demoEpochPages)).2.1).2.2 = 0 ∧
      (getEpochs ["1"] (getEpochs ["3"] (initialEpochState demoEpochPages)).2.1).2.1
        = (getEpochs ["3"] (initialEpochState demoEpochPages)).2.1 := by
  have h := getEpochs_scan_minimal_and_persistent ["3"] (initialEpochState demoEpochPages)
  have hz := h.2.2.2.2 ["1"] (by decide)
  exact ⟨by decide, hz.1, hz.2⟩

/-- C9: across every sequence of `getEpochs` calls the accumulator only grows —
the accumulated epoch list is only ever extended on the right (no entry is
removed), the integer watermark never decreases, and a record once retrievable
for its epoch number is returned unchanged by every later request for it. -/
theorem epoch_accumulator_monotone (calls : List (List String)) (st : EpochState) (v : Int)
    (hv : st.latestEpoch = .int v)
    (hparse : ∀ p ∈ st.remaining, ∀ e ∈ p.data, ∃ m : Int, parseIntJS e.epoch = .int m) :
    (∃ tail, (runCalls calls st).allEpochs = st.allEpochs ++ tail) ∧
      (∃ v' : Int, (runCalls calls st).latestEpoch = .int v' ∧ v ≤ v') ∧
      (∀ (ks : List String) (k : String) (e : EpochInfo) (i : Nat),
        epochLookup st.allEpochs k = .ok e → ks[i]? = some k →
        ((getEpochs ks (runCalls calls st)).1)[i]? = some (.ok e)) := by
  obtain ⟨⟨tail, htail⟩, hwm, _⟩ := runCalls_monotone calls st v hv hparse
  refine ⟨⟨tail, htail⟩, hwm, ?_⟩
  intro ks k e i hlook hki
  obtain ⟨_, h2, _, h4⟩ := getEpochs_state ks (runCalls calls st)
  rw [h4]
  rw [List.getElem?_map, hki]
  have : epochLookup (getEpochs ks (runCalls calls st)).2.1.allEpochs k = .ok e := by
    rw [h2, htail, List.append_assoc]
    exact epochLookup_append _ _ _ _ hlook
  simp [this]

/-- C9 witness: after scanning for epoch `3`, a further call for epoch `7`
extends the accumulation, keeps the watermark at least `3`, and epoch `1`
is still returned by a later request. -/
theorem epoch_accumulator_monotone_witness :
    (∃ tail, (runCalls [["7"]] (getEpochs ["3"] (initialEpochState demoEpochPages)).2.1).allEpochs
      = (getEpochs ["3"] (initialEpochState demoEpochPages)).2.1.allEpochs ++ tail) ∧
      ((getEpochs ["1"] (runCalls [["7"]]
          (getEpochs ["3"] (initialEpochState demoEpochPages)).2.1)).1)[0]?
        = some (.ok (demoEpoch "1")) := by
  have hrem : (getEpochs ["3"] (initialEpochState demoEpochPages)).2.1.remaining
      = [⟨[demoEpoch "4"], false⟩] := by decide
  have hparse : ∀ p ∈ (getEpochs ["3"] (initialEpochState demoEpochPages)).2.1.remaining,
      ∀ e ∈ p.data, ∃ m : Int, parseIntJS e.epoch = .int m := by
    rw [hrem]
    intro p hp e he
    simp only [List.mem_singleton] at hp
    subst hp
    simp only [demoEpoch, List.mem_singleton] at he
    subst he
    exact ⟨4, by decide⟩
  have h := epoch_accumulator_monotone [["7"]]
    (getEpochs ["3"] (initialEpochState demoEpochPages)).2.1 3 (by decide) hparse
  exact ⟨h.1, h.2.2 ["1"] "1" (demoEpoch "1") 0 (by decide) (by decide)⟩

/-- C10: a `getEpochs` call whose key list contains a key that does not parse
as a decimal integer (making the requested maximum NaN), or whose key list is
empty (maximum -Infinity), never enters the scan loop: zero upstream pages are
fetched, the state is unchanged, and every key is answered purely from the
already-accumulated list — a not-found error whenever it is absent there, even
if the epoch exists upstream. -/
theorem getEpochs_nan_short_circuit (keys : List String) (st : EpochState)
    (h : (∃ k ∈ keys, parseIntJS k = .nan) ∨ keys = []) :
    (getEpochs keys st).2.2 = 0 ∧ (getEpochs keys st).2.1 = st ∧
      (getEpochs keys st).1 = keys.map (epochLookup st.allEpochs) := by
  have hmax : jsGt (jsMaxList (keys.map parseIntJS)) st.latestEpoch = false := by
    rcases h with ⟨k, hk, hnan⟩ | rfl
    · have : JSNum.nan ∈ keys.map parseIntJS := List.mem_map.mpr ⟨k, hk, hnan⟩
      rw [jsMaxList_nan_of_mem this]
      exact jsGt_nan_left _
    · exact jsGt_negInf_left _
  obtain ⟨h1, h2, h3⟩ := getEpochs_zero_fetch keys st hmax
  exact ⟨h3, h2, h1⟩

/-- C10 witness: requesting `["x", "5"]` on a fresh state over the demo
upstream (whose epoch `5` does not exist, but `0`-`4` do) fetches zero pages
and reports both keys not found, although `"5"` is a valid number. -/
theorem getEpochs_nan_short_circuit_witness :
    (getEpochs ["x", "5"] (initialEpochState demoEpochPages)).2.2 = 0 ∧
      (getEpochs ["x", "5"] (initialEpochState demoEpochPages)).1
        = [.error "Epoch not found", .error "Epoch not found"] := by
  have h := getEpochs_nan_short_circuit ["x", "5"] (initialEpochState demoEpochPages)
    (Or.inl ⟨"x", by simp, by decide⟩)
  exact ⟨h.1, by rw [h.2.2]; decide⟩

/-! ## Loader correspondence lemmas -/

/-- Per-index behaviour of `TransactionBlock.load`: position `i` holds either
a returned block whose digest is `keys[i]`, or the per-key not-found error when
the collaborator returned no block with that digest. -/
theorem transactionBlockLoad_correspondence (multiGet : List String → List Txb)
    (keys : List String) (i : Nat) (h : i < keys.length) :
    (∃ txb, (transactionBlockLoad multiGet keys).1[i]? = some (.ok txb) ∧
        txb.digest = keys[i] ∧ txb ∈ multiGet keys) ∨
      ((transactionBlockLoad multiGet keys).1[i]?
          = some (.error ("TransactionBlock " ++ keys[i] ++ " not found")) ∧
        ∀ txb ∈ multiGet keys, txb.digest ≠ keys[i]) := by
  have h1 : (transactionBlockLoad multiGet keys).1 = keys.map (fun digest =>
      match (multiGet keys).find? (fun txb => txb.digest == digest) with
      | some txb => .ok txb
      | none => .error ("TransactionBlock " ++ digest ++ " not found")) := rfl
  rcases hf : (multiGet keys).find? (fun txb => txb.digest == keys[i]) with _ | txb
  · right
    constructor
    · rw [h1, List.getElem?_map, List.getElem?_eq_getElem h]
      simp [hf]
    · intro txb htxb
      have := List.find?_eq_none.mp hf txb htxb
      simpa using this
  · left
    refine ⟨txb, ?_, ?_, List.mem_of_find?_eq_some hf⟩
    · rw [h1, List.getElem?_map, List.getElem?_eq_getElem h]
      simp [hf]
    · have := List.find?_some hf
      simpa using this

/-- Per-index behaviour of `ObjectRef.load`: position `i` holds either a
returned object whose id is `keys[i]`, or the per-key not-found error when the
collaborator's response contains no object with that id. -/
theorem objectLoad_correspondence (multiGet : List String → List (Option Obj))
    (keys : List String) (i : Nat) (h : i < keys.length) :
    (∃ obj, (objectLoad multiGet keys).1[i]? = some (.ok obj) ∧
        obj.objectId = keys[i] ∧ some obj ∈ multiGet keys) ∨
      ((objectLoad multiGet keys).1[i]?
          = some (.error ("Object " ++ keys[i] ++ " not found")) ∧
        ∀ obj : Obj, some obj ∈ multiGet keys → obj.objectId ≠ keys[i]) := by
  have h1 : (objectLoad multiGet keys).1 = keys.map (fun id =>
      match (multiGet keys).find? (fun o => o.any fun obj => obj.objectId == id) with
      | some (some obj) => .ok obj
      | _ => .error ("Object " ++ id ++ " not found")) := rfl
  rcases hf : (multiGet keys).find? (fun o => o.any fun obj => obj.objectId == keys[i])
    with _ | o
  · right
    constructor
    · rw [h1, List.getElem?_map, List.getElem?_eq_getElem h]
      simp [hf]
    · intro obj hobj
      have := List.find?_eq_none.mp hf (some obj) hobj
      simpa [Option.any] using this
  · rcases o with _ | obj
    · have := List.find?_some hf
      simp [Option.any] at this
    · left
      refine ⟨obj, ?_, ?_, List.mem_of_find?_eq_some hf⟩
      · rw [h1, List.getElem?_map, List.getElem?_eq_getElem h]
        simp [hf]
      · have := List.find?_some hf
        simpa [Option.any] using this

/-- Per-index behaviour of the epoch loader's result mapping: position `i`
holds either an accumulated record whose `epoch` field is `keys[i]`, or the
not-found error. -/
theorem getEpochs_correspondence (keys : List String) (st : EpochState)
    (i : Nat) (h : i < keys.length) :
    (∃ e, (getEpochs keys st).1[i]? = some (.ok e) ∧ e.epoch = keys[i] ∧
        e ∈ (getEpochs keys st).2.1.allEpochs) ∨
      (getEpochs keys st).1[i]? = some (.error "Epoch not found") := by
  obtain ⟨_, _, _, h4⟩ := getEpochs_state keys st
  rcases hf : (getEpochs keys st).2.1.allEpochs.find? (fun e => e.epoch == keys[i])
    with _ | e
  · right
    rw [h4, List.getElem?_map, List.getElem?_eq_getElem h]
    simp [epochLookup, hf]
  · left
    refine ⟨e, ?_, ?_, List.mem_of_find?_eq_some hf⟩
    · rw [h4, List.getElem?_map, List.getElem?_eq_getElem h]
      simp [epochLookup, hf]
    · have := List.find?_some hf
      simpa using this

/-! ## Claim theorems: loaders -/

/-- C1 counterexample: the Checkpoint loader violates the claim as stated.
With a collaborator that has no checkpoint `B`, the batch load for
`["A", "B", "C"]` rejects wholesale with a single error — no per-item results,
no sibling resolution — because `Checkpoint.load` is
`Promise.all(keys.map((id) => suiClient.getCheckpoint({ id })))`. -/
theorem checkpointLoad_batch_rejection_cex :
    (checkpointLoad demoGetCheckpointMissingB ["A", "B", "C"]).1
      = .error "upstream: checkpoint not found" := by decide

/-- C1 (amended): for the Object and TransactionBlock loaders — the loaders
that re-associate a batch response by identifying field — a batch in which the
collaborator returns only a subset of the requested entities yields a per-item
not-found error at each missing key's position while every found key resolves
to its entity, and the batch function always returns a full result list (it
cannot throw merely because keys are absent).  In particular, loading object
ids `["A", "B", "C"]` when the collaborator returns only `A` and `C` yields
`[A, NotFound("B"), C]`.  The Checkpoint loader is excluded: it issues per-key
`getCheckpoint` calls through `Promise.all`, so one absent key rejects the
whole batch. -/
theorem loaders_partial_batch (multiGetObjects : List String → List (Option Obj))
    (multiGetTxbs : List String → List Txb) (keys : List String) (i : Nat)
    (h : i < keys.length) :
    (objectLoad multiGetObjects keys).1.length = keys.length ∧
      ((∃ obj, (objectLoad multiGetObjects keys).1[i]? = some (.ok obj) ∧
          obj.objectId = keys[i] ∧ some obj ∈ multiGetObjects keys) ∨
        ((objectLoad multiGetObjects keys).1[i]?
            = some (.error ("Object " ++ keys[i] ++ " not found")) ∧
          ∀ obj : Obj, some obj ∈ multiGetObjects keys → obj.objectId ≠ keys[i])) ∧
      (transactionBlockLoad multiGetTxbs keys).1.length = keys.length ∧
      ((∃ txb, (transactionBlockLoad multiGetTxbs keys).1[i]? = some (.ok txb) ∧
          txb.digest = keys[i] ∧ txb ∈ multiGetTxbs keys) ∨
        ((transactionBlockLoad multiGetTxbs keys).1[i]?
            = some (.error ("TransactionBlock " ++ keys[i] ++ " not found")) ∧
          ∀ txb ∈ multiGetTxbs keys, txb.digest ≠ keys[i])) ∧
      (objectLoad demoObjUpstream ["A", "B", "C"]).1
        = [.ok ⟨"A", "objA"⟩, .error "Object B not found", .ok ⟨"C", "objC"⟩] := by
  refine ⟨by simp [objectLoad], objectLoad_correspondence multiGetObjects keys i h,
    by simp [transactionBlockLoad], transactionBlockLoad_correspondence multiGetTxbs keys i h,
    by decide⟩

/-- C1 witness: the amended theorem applied to the demo collaborator that
returns only `A` and `C`, at key position 1 (the missing key `B`). -/
theorem loaders_partial_batch_witness :
    (objectLoad demoObjUpstream ["A", "B", "C"]).1.length = 3 ∧
      (objectLoad demoObjUpstream ["A", "B", "C"]).1
        = [.ok ⟨"A", "objA"⟩, .error "Object B not found", .ok ⟨"C", "objC"⟩] := by
  have h := loaders_partial_batch demoObjUpstream demoTxbUpstream ["A", "B", "C"] 1
    (by decide)
  exact ⟨h.1, h.2.2.2.2⟩

/-- C2: for every key list `K` handed to the batch function of the
TransactionBlock loader, the Object loader or the epoch loader, and every
collaborator response, the returned list has exactly `K`'s length and position
`i` holds either an entity whose identifying field (digest, objectId, epoch
number) equals `K[i]`, or a not-found error — whatever the order, duplication
or sparsity of the upstream response, since results are re-associated by the
identifying field. -/
theorem loadMany_length_and_correspondence (multiGetTxbs : List String → List Txb)
    (multiGetObjects : List String → List (Option Obj)) (st : EpochState)
    (keys : List String) (i : Nat) (h : i < keys.length) :
    (transactionBlockLoad multiGetTxbs keys).1.length = keys.length ∧
      ((∃ txb, (transactionBlockLoad multiGetTxbs keys).1[i]? = some (.ok txb) ∧
          txb.digest = keys[i] ∧ txb ∈ multiGetTxbs keys) ∨
        ((transactionBlockLoad multiGetTxbs keys).1[i]?
            = some (.error ("TransactionBlock " ++ keys[i] ++ " not found")) ∧
          ∀ txb ∈ multiGetTxbs keys, txb.digest ≠ keys[i])) ∧
      (objectLoad multiGetObjects keys).1.length = keys.length ∧
      ((∃ obj, (objectLoad multiGetObjects keys).1[i]? = some (.ok obj) ∧
          obj.objectId = keys[i] ∧ some obj ∈ multiGetObjects keys) ∨
        ((objectLoad multiGetObjects keys).1[i]?
            = some (.error ("Object " ++ keys[i] ++ " not found")) ∧
          ∀ obj : Obj, some obj ∈ multiGetObjects keys → obj.objectId ≠ keys[i])) ∧
      (getEpochs keys st).1.length = keys.length ∧
      ((∃ e, (getEpochs keys st).1[i]? = some (.ok e) ∧ e.epoch = keys[i] ∧
          e ∈ (getEpochs keys st).2.1.allEpochs) ∨
        (getEpochs keys st).1[i]? = some (.error "Epoch not found")) := by
  obtain ⟨_, _, _, h4⟩ := getEpochs_state keys st
  refine ⟨by simp [transactionBlockLoad],
    transactionBlockLoad_correspondence multiGetTxbs keys i h,
    by simp [objectLoad], objectLoad_correspondence multiGetObjects keys i h,
    by rw [h4]; simp, getEpochs_correspondence keys st i h⟩

/-- C2 witness: the correspondence applied to a shuffled, partial collaborator
response — loading `["B", "A"]` when the collaborator returns `C` then `A`
gives a not-found at position 0 and block `A` at position 1. -/
theorem loadMany_length_and_correspondence_witness :
    (transactionBlockLoad demoTxbUpstream ["B", "A"]).1.length = 2 ∧
      (transactionBlockLoad demoTxbUpstream ["B", "A"]).1[1]?
        = some (.ok ⟨"A", "ta"⟩) := by
  have h := loadMany_length_and_correspondence demoTxbUpstream demoObjUpstream
    (initialEpochState []) ["B", "A"] 1 (by decide)
  refine ⟨h.1, ?_⟩
  rcases h.2.1 with ⟨txb, hget, hdig, hmem⟩ | ⟨hget, hnone⟩
  · simp only [demoTxbUpstream, List.mem_cons, List.not_mem_nil, or_false] at hmem
    rcases hmem with rfl | rfl
    · simp at hdig
    · rw [hget]
  · exact absurd (show (⟨"A", "ta"⟩ : Txb).digest = ["B", "A"][1] from rfl)
      (hnone ⟨"A", "ta"⟩ (by decide))

/-- C5 counterexample: the Checkpoint and MoveModule loaders violate the
single-batch-request claim: for the two distinct keys of one batch they issue
two upstream calls of one key each, not one request carrying both keys. -/
theorem per_key_upstream_calls_cex :
    (checkpointLoad demoGetCheckpointMissingB ["A", "C"]).2 = [["A"], ["C"]] ∧
      (checkpointLoad demoGetCheckpointMissingB ["A", "C"]).2.length = 2 ∧
      (moveModuleLoad demoGetModule ["p,m", "p,n"]).2 = [["p,m"], ["p,n"]] := by
  decide

/-- C5 (amended): the TransactionBlock and Object loaders issue exactly one
upstream batch request per `load` invocation, carrying exactly the batch's
(already-deduplicated) key list; the Checkpoint and MoveModule loaders do not —
they issue one upstream call per key. -/
theorem batched_loaders_single_request (multiGetTxbs : List String → List Txb)
    (multiGetObjects : List String → List (Option Obj)) (keys : List String)
    (hnd : keys.Nodup) :
    (transactionBlockLoad multiGetTxbs keys).2 = [keys] ∧
      (transactionBlockLoad multiGetTxbs keys).2.length = 1 ∧
      (objectLoad multiGetObjects keys).2 = [keys] ∧
      (objectLoad multiGetObjects keys).2.length = 1 := by
  exact ⟨rfl, rfl, rfl, rfl⟩

/-- C5 witness: one batch request for the two distinct keys `["A", "B"]`. -/
theorem batched_loaders_single_request_witness :
    (transactionBlockLoad demoTxbUpstream ["A", "B"]).2 = [["A", "B"]] ∧
      (objectLoad demoObjUpstream ["A", "B"]).2.length = 1 := by
  have h := batched_loaders_single_request demoTxbUpstream demoObjUpstream ["A", "B"]
    (by decide)
  exact ⟨h.1, h.2.2.2⟩

/-! ## Claim theorems: cursors and pagination arguments -/

/-- C8: each per-type cursor function is a pure function of the entity's own
fields — applying it twice to equal entities yields identical cursor strings,
with no dependence on page position or request context — and it is the single
natural key where one exists (the checkpoint's sequence number, the
transaction block's digest) and the composite `eventSeq,txDigest` string for
events, which have no single unique field. -/
theorem cursor_functions_pure :
    (∀ c₁ c₂ : Chk, c₁ = c₂ → checkpointToCursor c₁ = checkpointToCursor c₂) ∧
      (∀ t₁ t₂ : Txb, t₁ = t₂ → transactionBlockToCursor t₁ = transactionBlockToCursor t₂) ∧
      (∀ e₁ e₂ : Ev, e₁ = e₂ → eventToCursor e₁ = eventToCursor e₂) ∧
      (∀ c : Chk, checkpointToCursor c = c.sequenceNumber) ∧
      (∀ t : Txb, transactionBlockToCursor t = t.digest) ∧
      (∀ e : Ev, eventToCursor e = e.id.eventSeq ++ "," ++ e.id.txDigest) :=
  ⟨fun _ _ h => congrArg checkpointToCursor h,
    fun _ _ h => congrArg transactionBlockToCursor h,
    fun _ _ h => congrArg eventToCursor h,
    fun _ => rfl, fun _ => rfl, fun _ => rfl⟩

/-- C8 witness: the purity equation at a concrete checkpoint, and the
composite event cursor at a concrete event. -/
theorem cursor_functions_pure_witness :
    checkpointToCursor ⟨"d1", "1", "c1"⟩ = checkpointToCursor ⟨"d1", "1", "c1"⟩ ∧
      eventToCursor ⟨⟨"0", "t1"⟩, "e1"⟩ = "0,t1" := by
  refine ⟨cursor_functions_pure.1 ⟨"d1", "1", "c1"⟩ ⟨"d1", "1", "c1"⟩ rfl, ?_⟩
  rw [cursor_functions_pure.2.2.2.2.2 ⟨⟨"0", "t1"⟩, "e1"⟩]
  decide

/-- C3 counterexample: `receivedTransactionBlockConnection` violates the claim
as stated — its fetch closure ignores the connection arguments, so with
`before` set it returns a successful connection rather than the
unsupported-operation error, and still issues one upstream call. -/
theorem received_before_not_rejected_cex :
    (receivedTransactionBlockConnection demoQueryTxb "obj1"
        ⟨some "cur", none, false, 5⟩).2.length = 1 ∧
      (receivedTransactionBlockConnection demoQueryTxb "obj1"
          ⟨some "cur", none, false, 5⟩).1
        = .ok ⟨[⟨⟨"a", "t1"⟩, "a"⟩, ⟨⟨"b", "t2"⟩, "b"⟩], false, some "b"⟩ := by
  decide

/-- C3 (amended): every connection resolver that checks its arguments —
`checkpointConnection`, `transactionBlockConnection` and `eventConnection` —
returns the unsupported-operation error on any invocation with a `before`
cursor and issues zero upstream calls; `receivedTransactionBlockConnection`
does not: it ignores the arguments, never returns that error, and always
issues its one upstream call. -/
theorem before_rejected_guarded_resolvers (getCheckpoints : CheckpointsRequest → UpPage Chk)
    (queryTxbs : TxbQueryRequest → UpPage Txb) (queryEvents : EventsQueryRequest → UpPage Ev)
    (args : FetchArgs) (c : String) (hb : args.before = some c) :
    checkpointConnection getCheckpoints args
        = (.error "backwards pagination not implemented", []) ∧
      transactionBlockConnection queryTxbs args
        = (.error "backwards pagination not implemented", []) ∧
      eventConnection queryEvents args
        = (.error "backwards pagination not implemented", []) := by
  obtain ⟨b, a, inv, lim⟩ := args
  cases hb
  exact ⟨rfl, rfl, rfl⟩

/-- C3 witness: the three guarded resolvers at a concrete `before` cursor. -/
theorem before_rejected_guarded_resolvers_witness :
    checkpointConnection demoGetCheckpoints ⟨some "9", none, false, 2⟩
        = (.error "backwards pagination not implemented", []) ∧
      eventConnection demoQueryEvents ⟨some "9", none, false, 2⟩
        = (.error "backwards pagination not implemented", []) := by
  have h := before_rejected_guarded_resolvers demoGetCheckpoints demoQueryTxb demoQueryEvents
    ⟨some "9", none, false, 2⟩ "9" rfl
  exact ⟨h.1, h.2.2⟩

/-- C7 counterexample: with `inverted = false` (plain forward traversal) the
checkpoint resolver's upstream request carries `descendingOrder = true` — the
opposite of the ascending iteration the claim requires — while
`transactionBlockConnection` sends `order = "ascending"` for the same
arguments, so the two resolvers' direction mappings disagree. -/
theorem direction_mapping_cex :
    (checkpointConnection demoGetCheckpoints ⟨none, none, false, 5⟩).2
        = [⟨true, 5, none⟩] ∧
      (transactionBlockConnection demoQueryTxb ⟨none, none, false, 5⟩).2
        = [⟨some 5, none, some "ascending", none⟩] := by
  decide

/-- C7 (amended): the upstream direction is a function of `inverted` in each
resolver, but not the same function across resolvers:
`transactionBlockConnection` maps non-inverted to `"ascending"` and inverted
to `"descending"`, whereas `checkpointConnection` passes
`descendingOrder = !inverted`, so its forward (non-inverted) traversal is
descending (newest-first) — each resolver's `inverted` flag flips its own
upstream direction, in opposite senses. -/
theorem direction_mapping (getCheckpoints : CheckpointsRequest → UpPage Chk)
    (queryTxbs : TxbQueryRequest → UpPage Txb) (args : FetchArgs)
    (hb : args.before = none) :
    (checkpointConnection getCheckpoints args).2
        = [⟨!args.inverted, args.limit, args.after⟩] ∧
      (transactionBlockConnection queryTxbs args).2
        = [⟨some args.limit, args.after,
            some (if args.inverted then "descending" else "ascending"), none⟩] := by
  obtain ⟨b, a, inv, lim⟩ := args
  cases hb
  exact ⟨rfl, rfl⟩

/-- C7 witness: the two direction mappings at `inverted = true`. -/
theorem direction_mapping_witness :
    (checkpointConnection demoGetCheckpoints ⟨none, none, true, 3⟩).2 = [⟨false, 3, none⟩] ∧
      (transactionBlockConnection demoQueryTxb ⟨none, none, true, 3⟩).2
        = [⟨some 3, none, some "descending", none⟩] := by
  have h := direction_mapping demoGetCheckpoints demoQueryTxb ⟨none, none, true, 3⟩ rfl
  exact ⟨h.1, h.2⟩

/-! ## Round-trip lemmas for cursor pagination -/

theorem dropWhile_key_append {α : Type} (key : α → String) (A B : List α) (x : α)
    (h : ∀ a ∈ A, ¬ key a = key x) :
    (A ++ x :: B).dropWhile (fun y => !(key y == key x)) = x :: B := by
  induction A with
  | nil => simp [List.dropWhile_cons]
  | cons a A ih =>
    have ha : (key a == key x) = false := beq_eq_false_iff_ne.mpr (h a (by simp))
    simp only [List.cons_append, List.dropWhile_cons, ha, Bool.not_false, if_true]
    exact ih (fun a' ha' => h a' (by simp [ha']))

theorem restAfter_none {α : Type} (key : α → String) (M : List α) :
    restAfter key M none = M := rfl

theorem restAfter_suffix {α : Type} (key : α → String) (M : List α) (c : Option String) :
    restAfter key M c <:+ M := by
  cases c with
  | none => exact List.suffix_refl M
  | some c => exact (List.drop_suffix 1 _).trans (List.dropWhile_suffix _)

/-- If `S` is what lies after cursor `c` and `x` is the last item of the page
`S.take n`, then what lies after cursor `key x` is exactly `S.drop n` —
provided keys are unique in the dataset. -/
theorem restAfter_step {α : Type} (key : α → String) (M : List α)
    (hnd : (M.map key).Nodup) (c : Option String) (S : List α)
    (hS : restAfter key M c = S) (n : Nat) (x : α)
    (hx : (S.take n).getLast? = some x) :
    restAfter key M (some (key x)) = S.drop n := by
  have htn : S.take n ≠ [] := by
    intro hnil
    rw [hnil] at hx
    simp at hx
  have hlast : (S.take n).getLast htn = x := by
    rw [List.getLast?_eq_getLast _ htn] at hx
    exact Option.some.inj hx
  have hdecomp : (S.take n).dropLast ++ [x] = S.take n := by
    rw [← hlast]
    exact List.dropLast_append_getLast htn
  obtain ⟨P, hP⟩ := restAfter_suffix key M c
  rw [hS] at hP
  have h1 : (S.take n).dropLast ++ x :: S.drop n = S := by
    calc (S.take n).dropLast ++ x :: S.drop n
        = ((S.take n).dropLast ++ [x]) ++ S.drop n := by simp
      _ = S.take n ++ S.drop n := by rw [hdecomp]
      _ = S := List.take_append_drop n S
  have hM : M = (P ++ (S.take n).dropLast) ++ x :: S.drop n := by
    rw [List.append_assoc, h1, hP]
  have hnotin : ∀ a ∈ P ++ (S.take n).dropLast, ¬ key a = key x := by
    intro a ha hkey
    rw [hM, List.map_append] at hnd
    rcases List.nodup_append.mp hnd with ⟨_, _, hdisj⟩
    exact hdisj (List.mem_map_of_mem key ha) (by rw [hkey]; simp)
  show (M.dropWhile fun y => !(key y == key x)).drop 1 = S.drop n
  rw [hM, dropWhile_key_append key _ _ x hnotin]
  simp

/-- Mapping an item to its edge and back to its node is the identity. -/
theorem map_node_mk {α : Type} (toCur : α → String) (l : List α) :
    (l.map (fun item => Edge.mk item (toCur item))).map Edge.node = l := by
  induction l with
  | nil => rfl
  | cons a l ih => simp [ih]

/-- Forward pagination over any fetch closure that passes the cursor through
to a cursor-respecting collaborator collects exactly the items after the
starting cursor, in order, once `hasNextPage` goes false. -/
theorem paginateAll_collects {α ρ : Type} (key toCur : α → String) (M : List α)
    (fetch : FetchArgs → Except String (UpPage α) × List ρ)
    (hnd : (M.map key).Nodup)
    (hcur : ∀ x ∈ M, toCur x = key x)
    (hfetch : ∀ after limit, (fetch ⟨none, after, false, limit⟩).1
        = .ok ⟨(restAfter key M after).take limit,
            decide (limit < (restAfter key M after).length)⟩)
    (n : Nat) (hn : 0 < n) :
    ∀ (fuel : Nat) (after : Option String) (S : List α),
      restAfter key M after = S → S.length < fuel →
      paginateAll toCur fetch fuel n after = S := by
  intro fuel
  induction fuel with
  | zero =>
    intro after S hS hlen
    exact absurd hlen (by omega)
  | succ fuel ih =>
    intro after S hS hlen
    rcases hfa : fetch ⟨none, after, false, n⟩ with ⟨res, reqs⟩
    have hres : res = .ok ⟨S.take n, decide (n < S.length)⟩ := by
      have hh := hfetch after n
      rw [hfa, hS] at hh
      exact hh
    subst hres
    by_cases hlt : n < S.length
    · have hdec : decide (n < S.length) = true := decide_eq_true hlt
      have htn : S.take n ≠ [] := by
        intro hnil
        have hlen0 : (S.take n).length = 0 := by rw [hnil]; rfl
        rw [List.length_take] at hlen0
        omega
      obtain ⟨x, hx⟩ : ∃ x, (S.take n).getLast? = some x := by
        rcases hgl : (S.take n).getLast? with _ | x
        · exact absurd (List.getLast?_eq_none_iff.mp hgl) htn
        · exact ⟨x, rfl⟩
      have hxS : x ∈ S := by
        obtain ⟨hne, hxeq⟩ := List.mem_getLast?_eq_getLast (Option.mem_def.mpr hx)
        rw [hxeq]
        exact List.mem_of_mem_take (List.getLast_mem hne)
      have hxM : x ∈ M := (restAfter_suffix key M after).subset (by rw [hS]; exact hxS)
      have hcx : toCur x = key x := hcur x hxM
      have hstep := restAfter_step key M hnd after S hS n x hx
      have hedges : ((((S.take n).map (fun item => Edge.mk item (toCur item))).getLast?).map
          Edge.cursor) = some (toCur x) := by
        rw [List.getLast?_map, hx]
        rfl
      have hld : (S.drop n).length = S.length - n := by
        simp
      have hrec := ih (some (toCur x)) (S.drop n)
        (by rw [hcx]; exact hstep)
        (by rw [hld]; omega)
      rw [paginateAll]
      simp only [paginate, hfa, hedges, hdec, if_true]
      rw [map_node_mk, hrec]
      exact List.take_append_drop n S
    · have hdec : decide (n < S.length) = false := decide_eq_false hlt
      have htake : S.take n = S := List.take_of_length_le (by omega)
      rw [paginateAll]
      simp only [paginate, hfa, hdec, Bool.false_eq_true, if_false]
      rw [map_node_mk, htake]

/-- C4 counterexample: `eventConnection` violates the round-trip claim as
stated.  Its upstream call never carries the cursor (the `cursor:` line is
commented out in the source), so with the two-event demo dataset and page size
1, re-invoking the resolver with each previous `endCursor` returns the first
event every time: three requests collect `[e1, e1, e1]`, not the unpaginated
scan `[e1, e2]`; indeed the fetch result with an `after` cursor is identical
to the fetch result with none. -/
theorem eventConnection_roundtrip_cex :
    paginateAll eventToCursor (eventFetch demoQueryEvents) 3 1 none
        = [⟨⟨"0", "t1"⟩, "e1"⟩, ⟨⟨"0", "t1"⟩, "e1"⟩, ⟨⟨"0", "t1"⟩, "e1"⟩] ∧
      (getPageModel eventToCursor demoEvData false none demoEvData.length).items
        = [⟨⟨"0", "t1"⟩, "e1"⟩, ⟨⟨"1", "t1"⟩, "e2"⟩] ∧
      (eventFetch demoQueryEvents ⟨none, some "0,t1", false, 1⟩).1
        = (eventFetch demoQueryEvents ⟨none, none, false, 1⟩).1 := by
  decide

/-- C4 (amended): for `checkpointConnection` and `transactionBlockConnection`
— the connection resolvers that pass the supplied `after` cursor and the
direction through to the upstream page call — paginating forward with any page
size `n > 0` over a fixed upstream dataset with distinct cursor keys,
re-invoking the resolver with the previous page's `endCursor` until
`hasNextPage` is false, yields the same total item list, in the same order, as
one unpaginated scan.  `eventConnection` is excluded: it does not pass the
cursor upstream, so repeated pagination refetches the first page forever. -/
theorem pagination_roundtrip (dataset : List Chk) (txbs : List Txb)
    (hndc : ((dataset.reverse).map Chk.sequenceNumber).Nodup)
    (hndt : (txbs.map Txb.digest).Nodup) (n fuel : Nat) (hn : 0 < n)
    (hfc : dataset.length < fuel) (hft : txbs.length < fuel) :
    paginateAll checkpointToCursor (checkpointFetch (getCheckpointsModel dataset)) fuel n none
        = (getCheckpointsModel dataset ⟨true, dataset.length, none⟩).items ∧
      paginateAll transactionBlockToCursor
          (transactionBlockFetch (queryTxbModel txbs)) fuel n none
        = (queryTxbModel txbs ⟨some txbs.length, none, some "ascending", none⟩).items ∧
      (∀ args : FetchArgs, args.before = none →
        (checkpointFetch (getCheckpointsModel dataset) args).2
            = [⟨!args.inverted, args.limit, args.after⟩] ∧
          (transactionBlockFetch (queryTxbModel txbs) args).2
            = [⟨some args.limit, args.after,
                some (if args.inverted then "descending" else "ascending"), none⟩]) := by
  refine ⟨?_, ?_, ?_⟩
  · have h := paginateAll_collects Chk.sequenceNumber checkpointToCursor dataset.reverse
      (checkpointFetch (getCheckpointsModel dataset)) hndc (fun x _ => rfl)
      (fun after limit => rfl) n hn fuel none dataset.reverse rfl (by simpa using hfc)
    rw [h]
    exact (List.take_of_length_le (by simp)).symm
  · have h := paginateAll_collects Txb.digest transactionBlockToCursor txbs
      (transactionBlockFetch (queryTxbModel txbs)) hndt (fun x _ => rfl)
      (fun after limit => rfl) n hn fuel none txbs rfl hft
    rw [h]
    exact (List.take_of_length_le (by simp)).symm
  · intro args hb
    obtain ⟨b, a, inv, lim⟩ := args
    cases hb
    exact ⟨rfl, rfl⟩

/-- C4 witness: round-tripping the three-checkpoint demo dataset with page
size 2 yields the full descending scan, and the two-block demo dataset yields
the full ascending scan. -/
theorem pagination_roundtrip_witness :
    paginateAll checkpointToCursor (checkpointFetch (getCheckpointsModel demoChkData)) 4 2 none
        = [⟨"d3", "3", "c3"⟩, ⟨"d2", "2", "c2"⟩, ⟨"d1", "1", "c1"⟩] ∧
      paginateAll transactionBlockToCursor (transactionBlockFetch (queryTxbModel demoTxbData))
          4 2 none = [⟨"a", "t1"⟩, ⟨"b", "t2"⟩] := by
  have h := pagination_roundtrip demoChkData demoTxbData (by decide) (by decide) 2 4
    (by decide) (by decide) (by decide)
  refine ⟨?_, ?_⟩
  · rw [h.1]
    decide
  · rw [h.2.1]
    decide

end PothosSui

-- sanity checks on the JS semantics
example : PothosSui.parseIntJS "17" = .int 17 := by decide
example : PothosSui.parseIntJS "-4" = .int (-4) := by decide
example : PothosSui.parseIntJS "abc" = .nan := by decide
example : PothosSui.parseIntJS "0x10" = .int 0 := by decide
example : PothosSui.jsMaxList [] = .negInf := by decide
example : PothosSui.jsMaxList [.int 3, .nan, .int 7] = .nan := by decide
example : PothosSui.jsMax2 (.int 5) .nan = .nan := by decide
